import Mathlib

/-!
Verification development for the flatmap SVG exporter
(`src/cmlibs/exporter/flatmapsvg.py`).

The Python module is shallowly embedded here:
  * real-valued coordinate/derivative components are modelled as rationals
    (`ℚ`), so that the "exact real-number division" of the design is exact;
  * the opaque modelling engine (Zinc) is modelled through the read-only
    query surface the module uses: elements expose their interpolation
    template and node lookup, nodes expose stored parameter retrieval,
    groups expose a name and a mesh containment test;
  * Python `dict`s (insertion ordered) are modelled as association lists,
    `dict` lookup failure (`KeyError`) and `None`-subscription
    (`TypeError`) are modelled with `Except String`;
  * `str(n)` / decimal f-string interpolation of naturals is modelled by
    `natStr`, a fuel-based structural recursion equal to the reversed
    decimal digit list (so the kernel can evaluate it).
-/

/-! ### Decimal rendering of naturals (Python `str(n)` and f-string interpolation) -/

/-- Digits of `n` in base 10, most significant first, as characters.
`fuel`-based so it reduces definitionally; correct whenever `n ≤ fuel`. -/
def natDigitsAux : Nat → Nat → List Char
  | 0, _ => []
  | fuel + 1, n => if n = 0 then [] else natDigitsAux fuel (n / 10) ++ [Nat.digitChar (n % 10)]

/-- Decimal string of a natural number, as Python `str(n)` produces it. -/
def natStr (n : Nat) : String :=
  if n = 0 then "0" else String.mk (natDigitsAux n n)

theorem natDigitsAux_zero : ∀ fuel, natDigitsAux fuel 0 = [] := by
  intro fuel
  cases fuel with
  | zero => rfl
  | succ f => simp [natDigitsAux]

theorem natDigitsAux_eq (fuel : Nat) : ∀ n, n ≠ 0 → n ≤ fuel →
    natDigitsAux fuel n = ((Nat.digits 10 n).map Nat.digitChar).reverse := by
  induction fuel with
  | zero => intro n hn hle; omega
  | succ fuel ih =>
    intro n hn hle
    rw [natDigitsAux, if_neg hn]
    rw [Nat.digits_def' (by norm_num : 1 < 10) (Nat.pos_of_ne_zero hn)]
    rw [List.map_cons, List.reverse_cons]
    by_cases h10 : n / 10 = 0
    · rw [h10, natDigitsAux_zero]
      simp
    · rw [ih (n / 10) h10 (by omega)]

theorem natStr_data_of_ne_zero {n : Nat} (hn : n ≠ 0) :
    (natStr n).data = ((Nat.digits 10 n).map Nat.digitChar).reverse := by
  rw [natStr, if_neg hn]
  exact natDigitsAux_eq n n hn le_rfl

theorem digitChar_isDigit : ∀ d, d < 10 → (Nat.digitChar d).isDigit = true := by
  decide

theorem digitChar_inj_lt : ∀ a, a < 10 → ∀ b, b < 10 →
    Nat.digitChar a = Nat.digitChar b → a = b := by
  decide

theorem map_digitChar_inj : ∀ (l1 l2 : List Nat), (∀ d ∈ l1, d < 10) → (∀ d ∈ l2, d < 10) →
    l1.map Nat.digitChar = l2.map Nat.digitChar → l1 = l2 := by
  intro l1
  induction l1 with
  | nil => intro l2 _ _ h; cases l2 <;> simp_all
  | cons a as ih =>
    intro l2 h1 h2 h
    cases l2 with
    | nil => simp at h
    | cons b bs =>
      simp only [List.map_cons, List.cons.injEq] at h
      have ha : a = b := digitChar_inj_lt a (h1 a (by simp)) b (h2 b (by simp)) h.1
      have hs : as = bs := ih bs (fun d hd => h1 d (by simp [hd])) (fun d hd => h2 d (by simp [hd])) h.2
      rw [ha, hs]

theorem natStr_inj : ∀ a b, natStr a = natStr b → a = b := by
  have key : ∀ n, n ≠ 0 → natStr n = natStr 0 → False := by
    intro n hn h
    have hd := congrArg String.data h
    rw [natStr_data_of_ne_zero hn] at hd
    have h0 : (natStr 0).data = ['0'] := by decide
    rw [h0] at hd
    have hrev := congrArg List.reverse hd
    rw [List.reverse_reverse] at hrev
    have hdig : Nat.digits 10 n = [0] := by
      apply map_digitChar_inj
      · intro d hdm; exact Nat.digits_lt_base (by norm_num) hdm
      · intro d hdm; simp at hdm; omega
      · simpa using hrev
    have hzero : n = Nat.ofDigits 10 (Nat.digits 10 n) := (Nat.ofDigits_digits 10 n).symm
    rw [hdig] at hzero
    rw [Nat.ofDigits] at hzero
    simp [Nat.ofDigits] at hzero
    exact hn hzero
  intro a b h
  by_cases ha : a = 0
  · by_cases hb : b = 0
    · rw [ha, hb]
    · exact absurd (key b hb (by rw [← h, ha])) id
  · by_cases hb : b = 0
    · exact absurd (key a ha (by rw [h, hb])) id
    · have hd := congrArg String.data h
      rw [natStr_data_of_ne_zero ha, natStr_data_of_ne_zero hb] at hd
      have := List.reverse_injective hd
      have : Nat.digits 10 a = Nat.digits 10 b := by
        apply map_digitChar_inj
        · intro d hdm; exact Nat.digits_lt_base (by norm_num) hdm
        · intro d hdm; exact Nat.digits_lt_base (by norm_num) hdm
        · exact this
      exact Nat.digits_inj_iff.mp this

theorem natStr_chars_digit (n : Nat) : ∀ c ∈ (natStr n).data, c.isDigit = true := by
  by_cases hn : n = 0
  · subst hn; decide
  · rw [natStr_data_of_ne_zero hn]
    intro c hc
    rw [List.mem_reverse, List.mem_map] at hc
    obtain ⟨d, hdm, rfl⟩ := hc
    exact digitChar_isDigit d (Nat.digits_lt_base (by norm_num) hdm)

theorem natStr_length_le_five {n : Nat} (h : n ≤ 99999) : (natStr n).data.length ≤ 5 := by
  by_cases hn : n = 0
  · subst hn; decide
  · rw [natStr_data_of_ne_zero hn, List.length_reverse, List.length_map]
    rw [Nat.digits_len 10 n (by norm_num) hn]
    have h5 : (10 : ℕ) ^ 5 = 100000 := by norm_num
    have : Nat.log 10 n < 5 :=
      Nat.log_lt_of_lt_pow hn (h5 ▸ (by omega : n < 100000))
    omega

/-! ### Basic String plumbing (strings are lists of characters) -/

theorem str_append_data (s t : String) : (s ++ t).data = s.data ++ t.data := rfl

theorem str_mk_data (l : List Char) : (String.mk l).data = l := rfl

theorem str_ext {s t : String} (h : s.data = t.data) : s = t :=
  congrArg String.mk h

theorem str_append_inj_left {s a b : String} (h : s ++ a = s ++ b) : a = b := by
  apply str_ext
  have := congrArg String.data h
  rw [str_append_data, str_append_data] at this
  exact List.append_cancel_left this

/-- Python `s.startswith(pat)` on character lists. -/
def prefixOfChars : List Char → List Char → Bool
  | [], _ => true
  | _ :: _, [] => false
  | a :: pa, b :: pb => a == b && prefixOfChars pa pb

/-- Does `pat` occur (contiguously) in the character list? -/
def occursInChars (pat : List Char) : List Char → Bool
  | [] => pat.isEmpty
  | b :: pb => prefixOfChars pat (b :: pb) || occursInChars pat pb

/-- Python `pat in s` (substring test), used to state facts about emitted SVG text. -/
def strContains (s pat : String) : Bool := occursInChars pat.data s.data

/-- Python `s.endswith(pat)`. -/
def strEndsWith (s pat : String) : Bool := prefixOfChars pat.data.reverse s.data.reverse

theorem prefixOfChars_self_append (p t : List Char) : prefixOfChars p (p ++ t) = true := by
  induction p with
  | nil => rfl
  | cons a pa ih => simp [prefixOfChars, ih]

theorem strEndsWith_append (s t : String) : strEndsWith (s ++ t) t = true := by
  unfold strEndsWith
  rw [str_append_data, List.reverse_append]
  exact prefixOfChars_self_append _ _

/-! ### `cmlibs.maths.vectorops`: elementwise vector arithmetic -/

abbrev Vec := List ℚ

namespace vectorops

/-- `sub(a, b)`: elementwise difference. -/
def sub (a b : Vec) : Vec := List.zipWith (fun x y => x - y) a b

/-- `add(a, b)`: elementwise sum. -/
def add (a b : Vec) : Vec := List.zipWith (fun x y => x + y) a b

/-- `div(a, s)`: divide each component by the scalar `s` (exact division in `ℚ`). -/
def div (a : Vec) (s : ℚ) : Vec := a.map (fun x => x / s)

end vectorops

/-! ### `_calculate_bezier_curve`

A curve-segment end is `(values, derivatives)`; either vector is `None`
(`Option.none`) when node parameter retrieval failed.  Python subscripting
`None[:2]` raises `TypeError`, modelled as `Except.error`. -/

abbrev SegEnd := Option Vec × Option Vec

abbrev Segment := SegEnd × SegEnd

abbrev BezTuple := Vec × Vec × Vec × Vec

def calculate_bezier_curve (pt_1 pt_2 : SegEnd) : Except String BezTuple :=
  match pt_1.1, pt_1.2, pt_2.1, pt_2.2 with
  | some values1, some derivatives1, some values2, some derivatives2 =>
    let h0 := values1.take 2
    let v0 := derivatives1.take 2
    let h1 := values2.take 2
    let v1 := derivatives2.take 2
    let b0 := h0
    let b1 := vectorops.sub h0 (vectorops.div v0 3)
    let b2 := vectorops.add h1 (vectorops.div v1 3)
    let b3 := h1
    Except.ok (b0, b1, b2, b3)
  | _, _, _, _ => Except.error ("TypeError")

instance instDecEqExcept {ε α : Type} [DecidableEq ε] [DecidableEq α] :
    DecidableEq (Except ε α) := fun x y =>
  match x, y with
  | Except.ok a, Except.ok b =>
    match decEq a b with
    | isTrue h => isTrue (h ▸ rfl)
    | isFalse h => isFalse (fun hh => h (by cases hh; rfl))
  | Except.error a, Except.error b =>
    match decEq a b with
    | isTrue h => isTrue (h ▸ rfl)
    | isFalse h => isFalse (fun hh => h (by cases hh; rfl))
  | Except.ok _, Except.error _ => isFalse (fun hh => Except.noConfusion hh)
  | Except.error _, Except.ok _ => isFalse (fun hh => Except.noConfusion hh)

/-- Claim C1 (counterexample): for end-1 position `(0,0)`, tangent `(3,0)`,
end-2 position `(10,0)`, tangent `(3,0)` the code does NOT yield
`b2 = (9,0)`: with `b2 = h1 + v1/3` it yields `b2 = (11,0)`. -/
theorem bezier_scenario_counterexample :
    ¬ (calculate_bezier_curve (some [0, 0], some [3, 0]) (some [10, 0], some [3, 0])
        = Except.ok (([0, 0] : Vec), ([-1, 0] : Vec), ([9, 0] : Vec), ([10, 0] : Vec))) := by
  norm_num [calculate_bezier_curve, vectorops.sub, vectorops.add, vectorops.div]

/-- Claim C1 (amended): the segment with end-1 position `(0,0)`, tangent `(3,0)`,
end-2 position `(10,0)`, tangent `(3,0)` yields the control points
`b0=(0,0), b1=(-1,0), b2=(11,0), b3=(10,0)` (the code adds `v1/3` at end 2). -/
theorem bezier_scenario_amended :
    calculate_bezier_curve (some [0, 0], some [3, 0]) (some [10, 0], some [3, 0])
      = Except.ok (([0, 0] : Vec), ([-1, 0] : Vec), ([11, 0] : Vec), ([10, 0] : Vec)) := by
  norm_num [calculate_bezier_curve, vectorops.sub, vectorops.add, vectorops.div]

/-- Claim C2: for every curve segment (endpoint vectors with at least two
components), the Bezier converter returns `b0` equal to the end-1 position and
`b3` equal to the end-2 position on the first two components, with
`b1 = h0 − v0/3` and `b2 = h1 + v1/3` componentwise, by exact division by 3. -/
theorem bezier_endpoint_offsets (values1 derivatives1 values2 derivatives2 : Vec)
    (h1 : 2 ≤ values1.length) (h2 : 2 ≤ derivatives1.length)
    (h3 : 2 ≤ values2.length) (h4 : 2 ≤ derivatives2.length) :
    ∃ b0 b1 b2 b3,
      calculate_bezier_curve (some values1, some derivatives1) (some values2, some derivatives2)
          = Except.ok (b0, b1, b2, b3)
        ∧ ∀ j, j < 2 →
            b0.getD j 0 = values1.getD j 0
          ∧ b1.getD j 0 = values1.getD j 0 - derivatives1.getD j 0 / 3
          ∧ b2.getD j 0 = values2.getD j 0 + derivatives2.getD j 0 / 3
          ∧ b3.getD j 0 = values2.getD j 0 := by
  match values1, h1 with
  | a0 :: a1 :: arest, _ =>
  match derivatives1, h2 with
  | c0 :: c1 :: crest, _ =>
  match values2, h3 with
  | e0 :: e1 :: erest, _ =>
  match derivatives2, h4 with
  | f0 :: f1 :: frest, _ =>
  refine ⟨_, _, _, _, rfl, ?_⟩
  intro j hj
  interval_cases j <;>
    simp [calculate_bezier_curve, vectorops.sub, vectorops.add, vectorops.div, List.getD]

/-- Witness for C2 at a concrete segment. -/
theorem bezier_endpoint_offsets_witness :
    ∃ b0 b1 b2 b3,
      calculate_bezier_curve (some [0, 0], some [3, 0]) (some [10, 0], some [3, 0])
          = Except.ok (b0, b1, b2, b3)
        ∧ ∀ j, j < 2 →
            b0.getD j 0 = ([0, 0] : Vec).getD j 0
          ∧ b1.getD j 0 = ([0, 0] : Vec).getD j 0 - ([3, 0] : Vec).getD j 0 / 3
          ∧ b2.getD j 0 = ([10, 0] : Vec).getD j 0 + ([3, 0] : Vec).getD j 0 / 3
          ∧ b3.getD j 0 = ([10, 0] : Vec).getD j 0 :=
  bezier_endpoint_offsets [0, 0] [3, 0] [10, 0] [3, 0]
    (by decide) (by decide) (by decide) (by decide)

/-! ### `_calculate_markers`

The marker extractor iterates datapoints of the group named `"marker"` or
`"markers"`.  The engine side (node iteration, field validity, per-point
string evaluation, the node identifier) is presented as a record; the random
`random.randint(1, 99999)` draws are an input stream `rng`, indexed by the
loop counter (one draw per marker when the id field is invalid). -/

/-- One datapoint of the marker group, with what the engine evaluates there. -/
structure MarkerPoint where
  identifier : Nat
  coords : Vec
  nameValue : String
  idValue : String

/-- The fieldmodule queries `_calculate_markers` makes. -/
structure MarkerFieldmodule where
  markersGroupValid : Bool
  nameFieldValid : Bool
  idFieldValid : Bool
  points : List MarkerPoint

/-- `f"{rand_num:0=5}"`: the decimal form zero-padded to width 5. -/
def pad5 (n : Nat) : String :=
  String.mk (List.replicate (5 - (natStr n).data.length) '0' ++ (natStr n).data)

/-- The `while marker.isValid()` loop body of `_calculate_markers`;
`i` is the running counter over all markers processed so far. -/
def calculateMarkersLoop (fmm : MarkerFieldmodule) (rng : Nat → Nat) :
    Nat → List MarkerPoint → List (String × Vec × String × String)
  | _, [] => []
  | i, marker :: rest =>
    let name := if fmm.nameFieldValid then marker.nameValue
                else "Unnamed marker " ++ natStr (i + 1)
    let onto_id := if fmm.idFieldValid then marker.idValue
                   else "UBERON:99" ++ pad5 (rng i)
    ("marker_" ++ natStr marker.identifier, marker.coords.take 2, name, onto_id)
      :: calculateMarkersLoop fmm rng (i + 1) rest

def calculate_markers (fmm : MarkerFieldmodule) (rng : Nat → Nat) :
    List (String × Vec × String × String) :=
  if fmm.markersGroupValid then calculateMarkersLoop fmm rng 0 fmm.points else []

theorem calculateMarkersLoop_getElem (fmm : MarkerFieldmodule) (rng : Nat → Nat) :
    ∀ (pts : List MarkerPoint) (i j : Nat) (m : MarkerPoint), pts[j]? = some m →
      (calculateMarkersLoop fmm rng i pts)[j]? =
        some ("marker_" ++ natStr m.identifier, m.coords.take 2,
          (if fmm.nameFieldValid then m.nameValue else "Unnamed marker " ++ natStr (i + j + 1)),
          (if fmm.idFieldValid then m.idValue else "UBERON:99" ++ pad5 (rng (i + j)))) := by
  intro pts
  induction pts with
  | nil => intro i j m hm; simp at hm
  | cons p rest ih =>
    intro i j m hm
    cases j with
    | zero =>
      simp at hm
      subst hm
      simp [calculateMarkersLoop]
    | succ j =>
      simp only [List.getElem?_cons_succ] at hm
      have := ih (i + 1) j m hm
      simpa [calculateMarkersLoop, Nat.add_assoc, Nat.add_comm, Nat.add_left_comm] using this

theorem calculateMarkersLoop_length (fmm : MarkerFieldmodule) (rng : Nat → Nat) :
    ∀ (pts : List MarkerPoint) (i : Nat), (calculateMarkersLoop fmm rng i pts).length = pts.length := by
  intro pts
  induction pts with
  | nil => intro i; rfl
  | cons p rest ih => intro i; simp [calculateMarkersLoop, ih]

/-- Claim C8: every extracted marker has a display name: the evaluated name
field when that field exists, otherwise `"Unnamed marker k"` with `k` the
marker's 1-based position in iteration order (a running counter over all
markers, never reset). -/
theorem marker_name_fallback (fmm : MarkerFieldmodule) (rng : Nat → Nat)
    (hg : fmm.markersGroupValid = true) :
    (calculate_markers fmm rng).length = fmm.points.length
    ∧ ∀ j (m : MarkerPoint), fmm.points[j]? = some m →
        ((calculate_markers fmm rng)[j]?).map (fun t => t.2.2.1) =
          some (if fmm.nameFieldValid then m.nameValue
                else "Unnamed marker " ++ natStr (j + 1)) := by
  constructor
  · rw [calculate_markers, if_pos hg]
    exact calculateMarkersLoop_length fmm rng fmm.points 0
  · intro j m hm
    rw [calculate_markers, if_pos hg]
    rw [calculateMarkersLoop_getElem fmm rng fmm.points 0 j m hm]
    simp

/-- Witness for C8: two markers, absent name field; the 2nd marker is named
`"Unnamed marker 2"`. -/
theorem marker_name_fallback_witness :
    ((calculate_markers
        ⟨true, false, true, [⟨7, [1, 2, 3], "", "id0"⟩, ⟨9, [4, 5], "", "id1"⟩]⟩
        (fun _ => 1))[1]?).map (fun t => t.2.2.1) = some ("Unnamed marker 2") := by
  have h := (marker_name_fallback
      ⟨true, false, true, [⟨7, [1, 2, 3], "", "id0"⟩, ⟨9, [4, 5], "", "id1"⟩]⟩
      (fun _ => 1) rfl).2 1 ⟨9, [4, 5], "", "id1"⟩ rfl
  simpa using h

theorem pad5_data (n : Nat) :
    (pad5 n).data = List.replicate (5 - (natStr n).data.length) '0' ++ (natStr n).data := rfl

theorem pad5_length_of_le {n : Nat} (h : n ≤ 99999) : (pad5 n).data.length = 5 := by
  rw [pad5_data, List.length_append, List.length_replicate]
  have := natStr_length_le_five h
  omega

theorem pad5_chars_digit (n : Nat) : ∀ c ∈ (pad5 n).data, c.isDigit = true := by
  intro c hc
  rw [pad5_data, List.mem_append] at hc
  cases hc with
  | inl h => rw [List.eq_of_mem_replicate h]; decide
  | inr h => exact natStr_chars_digit n c h

/-- Claim C10: when the id field is absent, every marker's synthesized
ontology id is `"UBERON:99"` followed by the 5-digit zero-padded decimal form
of that marker's random draw; for every draw in `[1, 99999]` the result is the
9-character prefix `"UBERON:99"` followed by exactly 5 digit characters. -/
theorem marker_id_fallback_pattern (fmm : MarkerFieldmodule) (rng : Nat → Nat)
    (hg : fmm.markersGroupValid = true) (hid : fmm.idFieldValid = false)
    (hr : ∀ k, 1 ≤ rng k ∧ rng k ≤ 99999) :
    ∀ (j : Nat) (m : MarkerPoint), fmm.points[j]? = some m →
      ∃ ds : List Char,
        ((calculate_markers fmm rng)[j]?).map
            (fun t : String × Vec × String × String => t.2.2.2)
            = some (String.mk (("UBERON:99").data ++ ds))
        ∧ ds.length = 5 ∧ ∀ c ∈ ds, c.isDigit = true := by
  intro j m hm
  refine ⟨(pad5 (rng j)).data, ?_, pad5_length_of_le (hr j).2, pad5_chars_digit (rng j)⟩
  rw [calculate_markers, if_pos hg]
  rw [calculateMarkersLoop_getElem fmm rng fmm.points 0 j m hm]
  simp [hid]
  apply str_ext
  rw [str_append_data]
  rfl

/-- Witness for C10 at a concrete marker set and random stream. -/
theorem marker_id_fallback_pattern_witness :
    ∃ ds : List Char,
      ((calculate_markers ⟨true, true, false, [⟨3, [0, 1], "nm", ""⟩]⟩
          (fun _ => 42))[0]?).map (fun t : String × Vec × String × String => t.2.2.2)
          = some (String.mk (("UBERON:99").data ++ ds))
      ∧ ds.length = 5 ∧ ∀ c ∈ ds, c.isDigit = true :=
  marker_id_fallback_pattern ⟨true, true, false, [⟨3, [0, 1], "nm", ""⟩]⟩ (fun _ => 42)
    rfl rfl (by intro k; exact ⟨by norm_num, by norm_num⟩)
    0 ⟨3, [0, 1], "nm", ""⟩ rfl

/-! ### `_analyze_elements` and its collaborators

The Zinc query surface used by the analyzer:
  * an element's interpolation template for the coordinate field
    (`getElementfieldtemplate`), with function / per-function term counts and
    the `(function, term) → (local node, version)` tables;
  * `element.getNode(eft, local_index)` — folded into the element record;
  * node parameter retrieval (`getNodeParameters`), returning `none` when the
    call does not report `RESULT_OK`;
  * the fieldmodule's group list; each group exposes its name and the
    containment test `group.getMeshGroup(mesh).containsElement(element)`.
When the named coordinate field is not found, Zinc hands back an invalid
field; `getElementfieldtemplate` on it yields an invalid template whose
queries all return 0 (modelled by `invalidEft`). -/

inductive ValueLabel
  | value
  | d_ds1
deriving DecidableEq

/-- A Zinc node as seen through `_get_node_data`. -/
structure ZNode where
  isValid : Bool
  getParams : ValueLabel → Nat → Option Vec

/-- An element field template (`eft`). Function and term indices are 1-based,
as in the Zinc API. -/
structure Eft where
  numberOfFunctions : Nat
  functionNumberOfTerms : Nat → Nat
  termLocalNodeIndex : Nat → Nat → Nat
  termNodeVersion : Nat → Nat → Nat

/-- The invalid template obtained for an invalid coordinate field: every
query returns 0. -/
def invalidEft : Eft := ⟨0, fun _ => 0, fun _ _ => 0, fun _ _ => 0⟩

/-- A 1-D mesh element with its template for the coordinate field and its
local-index → node table. -/
structure ZElement where
  eft : Eft
  getNode : Nat → ZNode

/-- A fieldmodule group: a name and the mesh containment test. -/
structure ZGroup where
  name : String
  meshContains : ZElement → Bool

/-- The region/fieldmodule as queried by `_analyze_elements`:
the 1-D mesh (element list in iterator order, `none` when absent), whether
`findFieldByName(coordinate_field_name)` found a valid finite element field,
and `get_group_list(fm)`. -/
structure ZRegion where
  mesh : Option (List ZElement)
  coordinatesValid : Bool
  groupList : List ZGroup

/-- `_get_node_data`: retrieve node parameters, `none` unless the node is
valid and retrieval reports `RESULT_OK`. -/
def get_node_data (node : ZNode) (node_parameter : ValueLabel) (version : Nat) : Option Vec :=
  if node.isValid then node.getParams node_parameter version else none

/-- `_get_parameters_from_eft`: end-1 uses functions 1–2, end-2 functions 3–4;
function `start_fn+1` carries the VALUE term, `start_fn+2` the D_DS1 term. -/
def get_parameters_from_eft (element : ZElement) (eft : Eft) (first : Bool) :
    Option Vec × Option Vec :=
  let start_fn := if first then 0 else 2
  let ln := eft.termLocalNodeIndex (start_fn + 1) 1
  let node_1 := element.getNode ln
  let version1 := eft.termNodeVersion (start_fn + 1) 1
  let values := get_node_data node_1 ValueLabel.value version1
  let version2 := eft.termNodeVersion (start_fn + 2) 1
  let derivatives := get_node_data node_1 ValueLabel.d_ds1 version2
  (values, derivatives)

/-- A value of the `groups` dict: either a list of curve segments or a
group's display name (stored under the `<label>_name` key). -/
inductive Entry
  | curves (segs : List Segment)
  | gname (s : String)
deriving DecidableEq

/-- The `groups` dict, insertion ordered. -/
abbrev GroupDict := List (String × Entry)

/-- Python dict lookup (`d[k]`), as an `Option`. -/
def lookupEntry : GroupDict → String → Option Entry
  | [], _ => none
  | (k', v) :: rest, k => if k' = k then some v else lookupEntry rest k

/-- Python dict assignment `d[k] = v`: replace the first binding of `k`
in place, else append a fresh binding. -/
def dictAssign : GroupDict → String → Entry → GroupDict
  | [], k, v => [(k, v)]
  | (k', v') :: rest, k, v =>
    if k' = k then (k', v) :: rest else (k', v') :: dictAssign rest k v

/-- Python `d[k].append(seg)`: `KeyError` when `k` is unbound, and the
binding must be a list (an `AttributeError` otherwise). -/
def dictAppendSeg : GroupDict → String → Segment → Except String GroupDict
  | [], k, _ => Except.error ("KeyError: " ++ k)
  | (k', v) :: rest, k, seg =>
    if k' = k then
      match v with
      | Entry.curves l => Except.ok ((k', Entry.curves (l ++ [seg])) :: rest)
      | Entry.gname _ => Except.error ("AttributeError")
    else
      match dictAppendSeg rest k seg with
      | Except.ok rest' => Except.ok ((k', v) :: rest')
      | Except.error msg => Except.error msg

/-- `f"group_{i}"`. -/
def groupLabel (i : Nat) : String := "group_" ++ natStr i

/-- The group-enumeration loop of `_analyze_elements`: every group except one
named `"marker"` gets a `group_<index+1>` list and a `group_<index+1>_name`
entry; `group_index` advances for every group, `"marker"` included. -/
def setupGroups : List ZGroup → Nat → GroupDict → GroupDict
  | [], _, groups => groups
  | group :: rest, group_index, groups =>
    if group.name ≠ "marker" then
      let group_label := groupLabel (group_index + 1)
      setupGroups rest (group_index + 1)
        (dictAssign (dictAssign groups group_label (Entry.curves []))
          (group_label ++ "_name") (Entry.gname group.name))
    else
      setupGroups rest (group_index + 1) groups

/-- The `status` list of the element loop:
`[function_count == 4]` then one entry per function `term_count == 1`. -/
def templateStatus (eft : Eft) : List Bool :=
  (eft.numberOfFunctions == 4)
    :: (List.range eft.numberOfFunctions).map (fun f => eft.functionNumberOfTerms (f + 1) == 1)

/-- `all(status)`. -/
def templateOk (eft : Eft) : Bool := (templateStatus eft).all id

/-- The template the element loop gets for the coordinate field. -/
def elementEft (r : ZRegion) (e : ZElement) : Eft :=
  if r.coordinatesValid then e.eft else invalidEft

/-- The group-membership loop for one accepted element: append the segment to
`groups[f"group_{group_index+1}"]` for every group whose mesh group contains
the element (the `"marker"` group is not excluded here). -/
def assignSegment : List ZGroup → Nat → ZElement → Segment → GroupDict → Bool →
    Except String (GroupDict × Bool)
  | [], _, _, _, groups, in_group => Except.ok (groups, in_group)
  | group :: rest, group_index, element, seg, groups, in_group =>
    if group.meshContains element then
      match dictAppendSeg groups (groupLabel (group_index + 1)) seg with
      | Except.ok groups' => assignSegment rest (group_index + 1) element seg groups' true
      | Except.error msg => Except.error msg
    else
      assignSegment rest (group_index + 1) element seg groups in_group

/-- One iteration of the `while element.isValid()` loop. -/
def processElement (r : ZRegion) (groups : GroupDict) (element : ZElement) :
    Except String GroupDict :=
  let eft := elementEft r element
  if templateOk eft then
    let p1 := get_parameters_from_eft element eft true
    let p2 := get_parameters_from_eft element eft false
    let seg : Segment := (p1, p2)
    match assignSegment r.groupList 0 element seg groups false with
    | Except.ok (groups', in_group) =>
      if in_group then Except.ok groups' else dictAppendSeg groups' ("ungrouped") seg
    | Except.error msg => Except.error msg
  else
    Except.ok groups

/-- The element loop over the whole mesh. -/
def processElements (r : ZRegion) : List ZElement → GroupDict → Except String GroupDict
  | [], groups => Except.ok groups
  | e :: rest, groups =>
    match processElement r groups e with
    | Except.ok groups' => processElements r rest groups'
    | Except.error msg => Except.error msg

/-- `_analyze_elements`. -/
def analyze_elements (r : ZRegion) : Except String GroupDict :=
  match r.mesh with
  | none => Except.ok []
  | some elements =>
    if elements.length = 0 then Except.ok []
    else
      processElements r elements
        (setupGroups r.groupList 0 [("ungrouped", Entry.curves [])])

/-! ### Facts about the dict keys -/

theorem natStr_data_ne_nil (i : Nat) : (natStr i).data ≠ [] := by
  by_cases hi : i = 0
  · subst hi; decide
  · rw [natStr_data_of_ne_zero hi]
    simp [Nat.digits_ne_nil_iff_ne_zero, hi]

theorem groupLabel_inj {a b : Nat} (h : groupLabel a = groupLabel b) : a = b :=
  natStr_inj a b (str_append_inj_left h)

theorem groupLabel_ne_ungrouped (i : Nat) : groupLabel i ≠ "ungrouped" := by
  intro h
  have hd := congrArg String.data h
  rw [groupLabel, str_append_data] at hd
  have h1 : (("group_").data ++ (natStr i).data).head? = some 'g' := rfl
  rw [hd] at h1
  exact absurd h1 (by decide)

theorem natStr_data_ne_append_name (i : Nat) (t : List Char) :
    (natStr i).data ≠ t ++ ("_name").data := by
  intro h
  have hrev := congrArg List.reverse h
  rw [List.reverse_append] at hrev
  cases hrd : (natStr i).data.reverse with
  | nil => exact natStr_data_ne_nil i (by simpa using congrArg List.reverse hrd)
  | cons c cs =>
    rw [hrd] at hrev
    have hc : c = 'e' := by
      have : (List.reverse (("_name").data) ++ List.reverse t).head? = some 'e' := rfl
      rw [← hrev] at this
      simpa using this
    have hmem : c ∈ (natStr i).data := by
      rw [← List.mem_reverse, hrd]
      simp
    have := natStr_chars_digit i c hmem
    rw [hc] at this
    exact absurd this (by decide)

theorem groupLabel_ne_name_key (i j : Nat) : groupLabel i ≠ groupLabel j ++ "_name" := by
  intro h
  have hd := congrArg String.data h
  rw [groupLabel, groupLabel, str_append_data, str_append_data, str_append_data] at hd
  rw [List.append_assoc] at hd
  have := List.append_cancel_left hd
  exact natStr_data_ne_append_name i (natStr j).data this

theorem name_key_ne_ungrouped (j : Nat) : groupLabel j ++ "_name" ≠ "ungrouped" := by
  intro h
  have hd := congrArg String.data h
  rw [groupLabel] at h
  have h1 : ((("group_" ++ natStr j) ++ "_name").data).head? = some 'g' := by
    rw [str_append_data, str_append_data]
    rfl
  rw [groupLabel] at hd
  rw [hd] at h1
  exact absurd h1 (by decide)

theorem name_key_inj {a b : Nat} (h : groupLabel a ++ "_name" = groupLabel b ++ "_name") :
    a = b := by
  apply groupLabel_inj
  apply str_ext
  have hd := congrArg String.data h
  rw [str_append_data, str_append_data] at hd
  exact List.append_cancel_right hd

/-! ### Counting curve segments in the groups dict -/

def entryCurvesLen : String × Entry → Nat
  | (_, Entry.curves l) => l.length
  | (_, Entry.gname _) => 0

/-- Total number of stored segments, over all bindings. -/
def totalCurves (d : GroupDict) : Nat := (d.map entryCurvesLen).sum

/-- Number of segments stored under key `k` (0 when unbound or a name). -/
def curveCount (d : GroupDict) (k : String) : Nat :=
  match lookupEntry d k with
  | some (Entry.curves l) => l.length
  | _ => 0

theorem curveCount_congr {d d' : GroupDict} {k : String}
    (h : lookupEntry d' k = lookupEntry d k) : curveCount d' k = curveCount d k := by
  rw [curveCount, curveCount, h]

theorem lookupEntry_dictAssign (d : GroupDict) (k : String) (v : Entry) (k2 : String) :
    lookupEntry (dictAssign d k v) k2 = if k = k2 then some v else lookupEntry d k2 := by
  induction d with
  | nil =>
    by_cases h : k = k2 <;> simp [dictAssign, lookupEntry, h]
  | cons p rest ih =>
    obtain ⟨k', v'⟩ := p
    rw [dictAssign]
    by_cases hk : k' = k
    · subst hk
      by_cases h2 : k' = k2 <;> simp [lookupEntry, h2]
    · rw [if_neg hk]
      by_cases h2 : k' = k2
      · subst h2
        rw [lookupEntry, if_pos rfl, if_neg (fun hh => hk hh.symm), lookupEntry, if_pos rfl]
      · rw [lookupEntry, if_neg h2, ih, lookupEntry, if_neg h2]

theorem dictAppendSeg_ok : ∀ (d : GroupDict) (k : String) (seg : Segment) (d' : GroupDict),
    dictAppendSeg d k seg = Except.ok d' →
    (∃ l, lookupEntry d k = some (Entry.curves l)
       ∧ lookupEntry d' k = some (Entry.curves (l ++ [seg])))
    ∧ (∀ k2, k2 ≠ k → lookupEntry d' k2 = lookupEntry d k2)
    ∧ totalCurves d' = totalCurves d + 1 := by
  intro d
  induction d with
  | nil => intro k seg d' h; exact absurd h (by simp [dictAppendSeg])
  | cons p rest ih =>
    intro k seg d' h
    obtain ⟨k', v⟩ := p
    simp only [dictAppendSeg] at h
    by_cases hk : k' = k
    · rw [if_pos hk] at h
      cases v with
      | curves l =>
        have hd' : d' = (k', Entry.curves (l ++ [seg])) :: rest := by
          cases h; rfl
        subst hd'
        refine ⟨⟨l, ?_, ?_⟩, ?_, ?_⟩
        · simp [lookupEntry, hk]
        · simp [lookupEntry, hk]
        · intro k2 hk2
          have hne : ¬ (k' = k2) := by rw [hk]; exact fun hh => hk2 hh.symm
          simp [lookupEntry, hne]
        · simp [totalCurves, entryCurvesLen]
          omega
      | gname s => exact absurd h (by simp)
    · rw [if_neg hk] at h
      cases hsub : dictAppendSeg rest k seg with
      | ok rest' =>
        rw [hsub] at h
        have hd' : d' = (k', v) :: rest' := by cases h; rfl
        subst hd'
        obtain ⟨⟨l, hl1, hl2⟩, hothers, htot⟩ := ih k seg rest' hsub
        refine ⟨⟨l, ?_, ?_⟩, ?_, ?_⟩
        · simpa [lookupEntry, hk] using hl1
        · simpa [lookupEntry, hk] using hl2
        · intro k2 hk2
          by_cases hk2' : k' = k2
          · simp [lookupEntry, hk2']
          · simp only [lookupEntry, if_neg hk2']
            exact hothers k2 hk2
        · simp only [totalCurves, List.map_cons, List.sum_cons] at htot ⊢
          omega
      | error msg => rw [hsub] at h; exact absurd h (by simp)

theorem assignSegment_ok :
    ∀ (gs : List ZGroup) (group_index : Nat) (e : ZElement) (seg : Segment)
      (d : GroupDict) (inG : Bool) (d' : GroupDict) (flag : Bool),
      assignSegment gs group_index e seg d inG = Except.ok (d', flag) →
      flag = (inG || gs.any (fun g => g.meshContains e))
      ∧ (∀ k2, (∀ j, j < gs.length → k2 ≠ groupLabel (group_index + j + 1)) →
          lookupEntry d' k2 = lookupEntry d k2)
      ∧ (∀ j (hj : j < gs.length),
          curveCount d' (groupLabel (group_index + j + 1)) =
            curveCount d (groupLabel (group_index + j + 1))
              + (if (gs.get ⟨j, hj⟩).meshContains e then 1 else 0))
      ∧ totalCurves d' = totalCurves d + (gs.filter (fun g => g.meshContains e)).length := by
  intro gs
  induction gs with
  | nil =>
    intro idx e seg d inG d' flag h
    simp only [assignSegment] at h
    have hd : d' = d := by cases h; rfl
    have hf : flag = inG := by cases h; rfl
    subst hd; subst hf
    refine ⟨by simp, fun k2 _ => rfl, ?_, by simp⟩
    intro j hj
    exact absurd hj (by simp)
  | cons g rest ih =>
    intro idx e seg d inG d' flag h
    simp only [assignSegment] at h
    by_cases hc : g.meshContains e = true
    · rw [if_pos hc] at h
      cases happ : dictAppendSeg d (groupLabel (idx + 1)) seg with
      | error msg => rw [happ] at h; exact absurd h (by simp)
      | ok d1 =>
        rw [happ] at h
        obtain ⟨hF, hO, hC, hT⟩ := ih (idx + 1) e seg d1 true d' flag h
        obtain ⟨⟨l, hl1, hl2⟩, hoth, htot⟩ := dictAppendSeg_ok d (groupLabel (idx + 1)) seg d1 happ
        refine ⟨?_, ?_, ?_, ?_⟩
        · rw [hF]; simp [hc]
        · intro k2 hk2
          have h0 : k2 ≠ groupLabel (idx + 1) := by
            have := hk2 0 (by simp)
            simpa using this
          rw [hO k2 ?_, hoth k2 h0]
          intro j hj
          have hnext := hk2 (j + 1) (by simpa using Nat.succ_lt_succ hj)
          have harith : idx + (j + 1) + 1 = (idx + 1) + j + 1 := by omega
          rwa [harith] at hnext
        · intro j hj
          cases j with
          | zero =>
            have harith : idx + 0 + 1 = idx + 1 := by omega
            rw [harith]
            have hd'L : lookupEntry d' (groupLabel (idx + 1))
                = lookupEntry d1 (groupLabel (idx + 1)) := by
              apply hO
              intro j hj2 heq
              have := groupLabel_inj heq
              omega
            rw [curveCount_congr hd'L]
            have hstep : curveCount d1 (groupLabel (idx + 1))
                = curveCount d (groupLabel (idx + 1)) + 1 := by
              rw [curveCount, curveCount, hl1, hl2]
              simp
            rw [hstep]
            simp [hc]
          | succ j =>
            have harith : idx + (j + 1) + 1 = (idx + 1) + j + 1 := by omega
            rw [harith]
            have hj' : j < rest.length := by simpa using Nat.lt_of_succ_lt_succ hj
            rw [hC j hj']
            have hlab : groupLabel ((idx + 1) + j + 1) ≠ groupLabel (idx + 1) := by
              intro heq
              have := groupLabel_inj heq
              omega
            rw [curveCount_congr (hoth _ hlab)]
            rfl
        · rw [hT, htot]
          rw [List.filter_cons_of_pos (by simpa using hc)]
          simp
          omega
    · rw [if_neg hc] at h
      obtain ⟨hF, hO, hC, hT⟩ := ih (idx + 1) e seg d inG d' flag h
      refine ⟨?_, ?_, ?_, ?_⟩
      · rw [hF]; simp [hc]
      · intro k2 hk2
        apply hO
        intro j hj
        have hnext := hk2 (j + 1) (by simpa using Nat.succ_lt_succ hj)
        have harith : idx + (j + 1) + 1 = (idx + 1) + j + 1 := by omega
        rwa [harith] at hnext
      · intro j hj
        cases j with
        | zero =>
          have harith : idx + 0 + 1 = idx + 1 := by omega
          rw [harith]
          have hd'L : lookupEntry d' (groupLabel (idx + 1))
              = lookupEntry d (groupLabel (idx + 1)) := by
            apply hO
            intro j hj2 heq
            have := groupLabel_inj heq
            omega
          rw [curveCount_congr hd'L]
          simp [hc]
        | succ j =>
          have harith : idx + (j + 1) + 1 = (idx + 1) + j + 1 := by omega
          rw [harith]
          have hj' : j < rest.length := by simpa using Nat.lt_of_succ_lt_succ hj
          rw [hC j hj']
          rfl
      · rw [hT]
        rw [List.filter_cons_of_neg (by simpa using hc)]

theorem templateOk_iff (eft : Eft) :
    templateOk eft = true ↔
      (eft.numberOfFunctions = 4
        ∧ ∀ f, f < eft.numberOfFunctions → eft.functionNumberOfTerms (f + 1) = 1) := by
  rw [templateOk, templateStatus]
  simp [List.all_eq_true, List.mem_range]

theorem processElement_not_accepted (r : ZRegion) (e : ZElement) (d : GroupDict)
    (h : templateOk (elementEft r e) = false) :
    processElement r d e = Except.ok d := by
  simp [processElement, h]

theorem processElement_ok_accepted (r : ZRegion) (e : ZElement) (d d' : GroupDict)
    (hacc : templateOk (elementEft r e) = true)
    (h : processElement r d e = Except.ok d') :
    (∀ i (hi : i < r.groupList.length),
      curveCount d' (groupLabel (i + 1)) =
        curveCount d (groupLabel (i + 1))
          + (if (r.groupList.get ⟨i, hi⟩).meshContains e then 1 else 0))
    ∧ curveCount d' ("ungrouped") =
        curveCount d ("ungrouped")
          + (if r.groupList.any (fun g => g.meshContains e) then 0 else 1)
    ∧ totalCurves d' = totalCurves d
        + (r.groupList.filter (fun g => g.meshContains e)).length
        + (if r.groupList.any (fun g => g.meshContains e) then 0 else 1) := by
  rw [processElement] at h
  simp only [hacc, if_true] at h
  cases hassign : assignSegment r.groupList 0 e
      (get_parameters_from_eft e (elementEft r e) true,
        get_parameters_from_eft e (elementEft r e) false) d false with
  | error msg => rw [hassign] at h; exact absurd h (by simp)
  | ok p =>
    obtain ⟨d1, flag⟩ := p
    rw [hassign] at h
    obtain ⟨hF, hO, hC, hT⟩ := assignSegment_ok r.groupList 0 e
      (get_parameters_from_eft e (elementEft r e) true,
        get_parameters_from_eft e (elementEft r e) false) d false d1 flag hassign
    rw [Bool.false_or] at hF
    cases flag with
    | true =>
      simp only [if_true] at h
      have hd1 : d' = d1 := by cases h; rfl
      subst hd1
      have hany : r.groupList.any (fun g => g.meshContains e) = true := hF.symm
      refine ⟨?_, ?_, ?_⟩
      · intro i hi
        have := hC i hi
        rwa [Nat.zero_add] at this
      · have hug : lookupEntry d' ("ungrouped") = lookupEntry d ("ungrouped") := by
          apply hO
          intro j hj heq
          exact groupLabel_ne_ungrouped (0 + j + 1) heq.symm
        rw [curveCount_congr hug, hany]
        simp
      · rw [hT, hany]
        simp
    | false =>
      simp only [if_false, Bool.false_eq_true] at h
      have hany : r.groupList.any (fun g => g.meshContains e) = false := hF.symm
      obtain ⟨⟨l, hl1, hl2⟩, hoth, htot⟩ := dictAppendSeg_ok d1 ("ungrouped")
        (get_parameters_from_eft e (elementEft r e) true,
          get_parameters_from_eft e (elementEft r e) false) d' h
      refine ⟨?_, ?_, ?_⟩
      · intro i hi
        have hlab : groupLabel (i + 1) ≠ "ungrouped" := groupLabel_ne_ungrouped (i + 1)
        rw [curveCount_congr (hoth _ hlab)]
        have := hC i hi
        rwa [Nat.zero_add] at this
      · have hd1ug : lookupEntry d1 ("ungrouped") = lookupEntry d ("ungrouped") := by
          apply hO
          intro j hj heq
          exact groupLabel_ne_ungrouped (0 + j + 1) heq.symm
        have h1 : curveCount d' ("ungrouped") = curveCount d1 ("ungrouped") + 1 := by
          rw [curveCount, curveCount, hl1, hl2]
          simp
        rw [h1, curveCount_congr hd1ug, hany]
        simp
      · rw [htot, hT, hany]
        simp

/-- Fixture: an accepted element (4 single-term functions, valid node). -/
def wEft : Eft := ⟨4, fun _ => 1, fun _ _ => 1, fun _ _ => 1⟩

def wNode : ZNode := ⟨true, fun _ _ => some [0, 0]⟩

def wElement : ZElement := ⟨wEft, fun _ => wNode⟩

/-- The segment `wElement` contributes. -/
def wSeg : Segment := ((some [0, 0], some [0, 0]), (some [0, 0], some [0, 0]))

/-- Claim C6: processing an element changes the stored segment count (under
some group label or `"ungrouped"`) if and only if the element's interpolation
template for the coordinate field has exactly 4 interpolation functions, each
with exactly 1 term; any other template shape leaves the groups dict
unchanged, with no error raised. -/
theorem element_shape_filter_iff (r : ZRegion) (e : ZElement) (d : GroupDict) :
    (¬ ((elementEft r e).numberOfFunctions = 4
        ∧ ∀ f, f < (elementEft r e).numberOfFunctions →
            (elementEft r e).functionNumberOfTerms (f + 1) = 1) →
      processElement r d e = Except.ok d)
    ∧ ∀ d', processElement r d e = Except.ok d' →
        (totalCurves d' ≠ totalCurves d ↔
          ((elementEft r e).numberOfFunctions = 4
            ∧ ∀ f, f < (elementEft r e).numberOfFunctions →
                (elementEft r e).functionNumberOfTerms (f + 1) = 1)) := by
  constructor
  · intro hn
    apply processElement_not_accepted
    cases hb : templateOk (elementEft r e) with
    | false => rfl
    | true => exact absurd ((templateOk_iff _).mp hb) hn
  · intro d' h
    by_cases hacc : templateOk (elementEft r e) = true
    · obtain ⟨_, _, htot⟩ := processElement_ok_accepted r e d d' hacc h
      constructor
      · intro _
        exact (templateOk_iff _).mp hacc
      · intro _
        rw [htot]
        by_cases hany : r.groupList.any (fun g => g.meshContains e) = true
        · obtain ⟨g, hgm, hgc⟩ := List.any_eq_true.mp hany
          have hmem : g ∈ r.groupList.filter (fun g => g.meshContains e) :=
            List.mem_filter.mpr ⟨hgm, hgc⟩
          have hpos : 0 < (r.groupList.filter (fun g => g.meshContains e)).length :=
            List.length_pos.mpr (fun hnil => by simp [hnil] at hmem)
          simp only [hany, if_true]
          omega
        · rw [if_neg hany]
          omega
    · have hfalse : templateOk (elementEft r e) = false := by
        cases hb : templateOk (elementEft r e) with
        | false => rfl
        | true => exact absurd hb hacc
      rw [processElement_not_accepted r e d hfalse] at h
      have hd : d' = d := by cases h; rfl
      subst hd
      constructor
      · intro hne; exact absurd rfl hne
      · intro hcl; exact absurd ((templateOk_iff _).mpr hcl) hacc

/-- Witness for C6: an accepted element in a group-free region adds its
segment to `"ungrouped"`, changing the total count. -/
theorem element_shape_filter_iff_witness :
    totalCurves [("ungrouped", Entry.curves [wSeg])]
      ≠ totalCurves [("ungrouped", Entry.curves [])] :=
  ((element_shape_filter_iff ⟨some [wElement], true, []⟩ wElement
      [("ungrouped", Entry.curves [])]).2
    [("ungrouped", Entry.curves [wSeg])] rfl).mpr ⟨rfl, by decide⟩

/-- Claim C7: an accepted element's segment is appended exactly to the lists
of the groups whose mesh group contains the element (each such group's count
rises by one, every other label is untouched), and to `"ungrouped"` if and
only if no group contains it. -/
theorem segment_group_membership (r : ZRegion) (e : ZElement) (d d' : GroupDict)
    (hacc : templateOk (elementEft r e) = true)
    (h : processElement r d e = Except.ok d') :
    (∀ i (hi : i < r.groupList.length),
      curveCount d' (groupLabel (i + 1)) =
        curveCount d (groupLabel (i + 1))
          + (if (r.groupList.get ⟨i, hi⟩).meshContains e then 1 else 0))
    ∧ curveCount d' ("ungrouped") =
        curveCount d ("ungrouped")
          + (if r.groupList.any (fun g => g.meshContains e) then 0 else 1) :=
  ⟨(processElement_ok_accepted r e d d' hacc h).1,
   (processElement_ok_accepted r e d d' hacc h).2.1⟩

/-- Witness for C7: a containing group's list receives the segment. -/
theorem segment_group_membership_witness :
    curveCount [("ungrouped", Entry.curves []), ("group_1", Entry.curves [wSeg]),
        ("group_1_name", Entry.gname ("NerveA"))] ("group_1") = 1 := by
  exact (segment_group_membership
      ⟨some [wElement], true, [⟨"NerveA", fun _ => true⟩]⟩ wElement
      [("ungrouped", Entry.curves []), ("group_1", Entry.curves []),
        ("group_1_name", Entry.gname ("NerveA"))]
      [("ungrouped", Entry.curves []), ("group_1", Entry.curves [wSeg]),
        ("group_1_name", Entry.gname ("NerveA"))]
      (by decide) rfl).1 0 (by decide)

/-- Fixture for C4: a single group named `"marker"` whose mesh group contains
the (accepted) element. -/
def markerRegion : ZRegion := ⟨some [wElement], true, [⟨"marker", fun _ => true⟩]⟩

/-- Claim C4 (the code violates it): when the `"marker"` group's mesh group
contains an accepted element, the element analysis does not complete — the
membership loop indexes `groups["group_1"]`, a label the setup loop never
created for the marker group, raising `KeyError`. -/
theorem marker_containment_raises_keyerror :
    analyze_elements markerRegion = Except.error ("KeyError: group_1") := by
  rfl

/-! ### What the setup loop binds, and that processing preserves it -/

/-- No label or name key above `idx` is bound in `d`. -/
def FreshFrom (d : GroupDict) (idx : Nat) : Prop :=
  ∀ j, idx < j → lookupEntry d (groupLabel j) = none
    ∧ lookupEntry d (groupLabel j ++ "_name") = none

theorem setupGroups_preserves : ∀ (gs : List ZGroup) (idx : Nat) (d : GroupDict) (k : String),
    (∀ j, j < gs.length →
      k ≠ groupLabel (idx + j + 1) ∧ k ≠ groupLabel (idx + j + 1) ++ "_name") →
    lookupEntry (setupGroups gs idx d) k = lookupEntry d k := by
  intro gs
  induction gs with
  | nil => intro idx d k h; rfl
  | cons g rest ih =>
    intro idx d k h
    have hshift : ∀ j, j < rest.length →
        k ≠ groupLabel ((idx + 1) + j + 1) ∧ k ≠ groupLabel ((idx + 1) + j + 1) ++ "_name" := by
      intro j hj
      have := h (j + 1) (by simpa using Nat.succ_lt_succ hj)
      have harith : idx + (j + 1) + 1 = (idx + 1) + j + 1 := by omega
      rwa [harith] at this
    have h0 := h 0 (by simp)
    rw [Nat.add_zero] at h0
    rw [setupGroups]
    by_cases hmk : g.name ≠ "marker"
    · rw [if_pos hmk, ih _ _ _ hshift]
      rw [lookupEntry_dictAssign, lookupEntry_dictAssign]
      rw [if_neg (fun hh => h0.2 hh.symm), if_neg (fun hh => h0.1 hh.symm)]
    · rw [if_neg hmk]
      exact ih _ _ _ hshift

theorem freshFrom_mono {d : GroupDict} {idx idx2 : Nat} (hle : idx ≤ idx2)
    (h : FreshFrom d idx) : FreshFrom d idx2 :=
  fun j hj => h j (by omega)

theorem freshFrom_assigned {d : GroupDict} {idx : Nat} (h : FreshFrom d idx) (s : String) :
    FreshFrom
      (dictAssign (dictAssign d (groupLabel (idx + 1)) (Entry.curves []))
        (groupLabel (idx + 1) ++ "_name") (Entry.gname s)) (idx + 1) := by
  intro j hj
  have hne1 : ¬ (groupLabel (idx + 1) ++ "_name" = groupLabel j) :=
    fun hh => groupLabel_ne_name_key j (idx + 1) hh.symm
  have hne2 : ¬ (groupLabel (idx + 1) = groupLabel j) :=
    fun hh => (by omega : ¬ (idx + 1 = j)) (groupLabel_inj hh)
  have hne3 : ¬ (groupLabel (idx + 1) ++ "_name" = groupLabel j ++ "_name") :=
    fun hh => (by omega : ¬ (idx + 1 = j)) (name_key_inj hh)
  have hne4 : ¬ (groupLabel (idx + 1) = groupLabel j ++ "_name") :=
    fun hh => groupLabel_ne_name_key (idx + 1) j hh
  constructor
  · rw [lookupEntry_dictAssign, if_neg hne1, lookupEntry_dictAssign, if_neg hne2]
    exact (h j (by omega)).1
  · rw [lookupEntry_dictAssign, if_neg hne3, lookupEntry_dictAssign, if_neg hne4]
    exact (h j (by omega)).2

theorem setupGroups_lookup : ∀ (gs : List ZGroup) (idx : Nat) (d : GroupDict),
    FreshFrom d idx →
    ∀ i (hi : i < gs.length),
      ((gs.get ⟨i, hi⟩).name ≠ "marker" →
        lookupEntry (setupGroups gs idx d) (groupLabel (idx + i + 1)) = some (Entry.curves [])
        ∧ lookupEntry (setupGroups gs idx d) (groupLabel (idx + i + 1) ++ "_name")
            = some (Entry.gname (gs.get ⟨i, hi⟩).name))
      ∧ ((gs.get ⟨i, hi⟩).name = "marker" →
        lookupEntry (setupGroups gs idx d) (groupLabel (idx + i + 1)) = none) := by
  intro gs
  induction gs with
  | nil => intro idx d hF i hi; exact absurd hi (by simp)
  | cons g rest ih =>
    intro idx d hF i hi
    rw [setupGroups]
    by_cases hmk : g.name ≠ "marker"
    · rw [if_pos hmk]
      cases i with
      | zero =>
        rw [Nat.add_zero]
        constructor
        · intro _
          constructor
          · rw [setupGroups_preserves rest (idx + 1) _ _ ?fresh1]
            case fresh1 =>
              intro j hj
              constructor
              · intro hh
                have := groupLabel_inj hh
                omega
              · exact fun hh => groupLabel_ne_name_key (idx + 1) ((idx + 1) + j + 1) hh
            rw [lookupEntry_dictAssign, lookupEntry_dictAssign]
            rw [if_neg (fun hh => groupLabel_ne_name_key (idx + 1) (idx + 1) hh.symm),
              if_pos rfl]
          · rw [setupGroups_preserves rest (idx + 1) _ _ ?fresh2]
            case fresh2 =>
              intro j hj
              constructor
              · exact fun hh => groupLabel_ne_name_key ((idx + 1) + j + 1) (idx + 1) hh.symm
              · intro hh
                have := name_key_inj hh
                omega
            rw [lookupEntry_dictAssign, if_pos rfl]
            rfl
        · intro hmm
          exact absurd hmm hmk
      | succ i =>
        have hi' : i < rest.length := by simpa using Nat.lt_of_succ_lt_succ hi
        have harith : idx + (i + 1) + 1 = (idx + 1) + i + 1 := by omega
        rw [harith]
        exact ih (idx + 1) _ (freshFrom_assigned hF g.name) i hi'
    · rw [if_neg hmk]
      rw [not_not] at hmk
      cases i with
      | zero =>
        rw [Nat.add_zero]
        constructor
        · intro hne
          exact absurd hmk hne
        · intro _
          rw [setupGroups_preserves rest (idx + 1) _ _ ?fresh3]
          case fresh3 =>
            intro j hj
            constructor
            · intro hh
              have := groupLabel_inj hh
              omega
            · exact fun hh => groupLabel_ne_name_key (idx + 1) ((idx + 1) + j + 1) hh
          exact (hF (idx + 1) (by omega)).1
      | succ i =>
        have hi' : i < rest.length := by simpa using Nat.lt_of_succ_lt_succ hi
        have harith : idx + (i + 1) + 1 = (idx + 1) + i + 1 := by omega
        rw [harith]
        exact ih (idx + 1) d (freshFrom_mono (by omega) hF) i hi'

/-- Processing elements only appends to existing curve lists: unbound keys
stay unbound, name entries are untouched, curve entries stay curve entries. -/
def ShapePreserved (d d' : GroupDict) : Prop :=
  ∀ k, (lookupEntry d k = none → lookupEntry d' k = none)
    ∧ (∀ s, lookupEntry d k = some (Entry.gname s) → lookupEntry d' k = some (Entry.gname s))
    ∧ (∀ l, lookupEntry d k = some (Entry.curves l) →
        ∃ l2, lookupEntry d' k = some (Entry.curves l2))

theorem shapePreserved_refl (d : GroupDict) : ShapePreserved d d :=
  fun _ => ⟨fun h => h, fun _ h => h, fun l h => ⟨l, h⟩⟩

theorem shapePreserved_trans {a b c : GroupDict}
    (h1 : ShapePreserved a b) (h2 : ShapePreserved b c) : ShapePreserved a c := by
  intro k
  refine ⟨?_, ?_, ?_⟩
  · intro h; exact (h2 k).1 ((h1 k).1 h)
  · intro s h; exact (h2 k).2.1 s ((h1 k).2.1 s h)
  · intro l h
    obtain ⟨l2, hl2⟩ := (h1 k).2.2 l h
    exact (h2 k).2.2 l2 hl2

theorem dictAppendSeg_shape {d : GroupDict} {k : String} {seg : Segment} {d' : GroupDict}
    (h : dictAppendSeg d k seg = Except.ok d') : ShapePreserved d d' := by
  obtain ⟨⟨l, hl1, hl2⟩, hoth, _⟩ := dictAppendSeg_ok d k seg d' h
  intro k2
  by_cases hk2 : k2 = k
  · subst hk2
    refine ⟨?_, ?_, ?_⟩
    · intro hn; rw [hn] at hl1; cases hl1
    · intro s hs; rw [hs] at hl1; cases hl1
    · intro l0 hl0
      exact ⟨l ++ [seg], hl2⟩
  · rw [← hoth k2 hk2] at *
    exact (shapePreserved_refl d') k2

theorem assignSegment_shape :
    ∀ (gs : List ZGroup) (idx : Nat) (e : ZElement) (seg : Segment)
      (d : GroupDict) (inG : Bool) (d' : GroupDict) (flag : Bool),
      assignSegment gs idx e seg d inG = Except.ok (d', flag) → ShapePreserved d d' := by
  intro gs
  induction gs with
  | nil =>
    intro idx e seg d inG d' flag h
    simp only [assignSegment] at h
    have hd : d' = d := by cases h; rfl
    subst hd
    exact shapePreserved_refl _
  | cons g rest ih =>
    intro idx e seg d inG d' flag h
    simp only [assignSegment] at h
    by_cases hc : g.meshContains e = true
    · rw [if_pos hc] at h
      cases happ : dictAppendSeg d (groupLabel (idx + 1)) seg with
      | error msg => rw [happ] at h; exact absurd h (by simp)
      | ok d1 =>
        rw [happ] at h
        exact shapePreserved_trans (dictAppendSeg_shape happ)
          (ih (idx + 1) e seg d1 true d' flag h)
    · rw [if_neg hc] at h
      exact ih (idx + 1) e seg d inG d' flag h

theorem processElement_shape (r : ZRegion) (e : ZElement) (d d' : GroupDict)
    (h : processElement r d e = Except.ok d') : ShapePreserved d d' := by
  rw [processElement] at h
  by_cases hacc : templateOk (elementEft r e) = true
  · simp only [hacc, if_true] at h
    cases hassign : assignSegment r.groupList 0 e
        (get_parameters_from_eft e (elementEft r e) true,
          get_parameters_from_eft e (elementEft r e) false) d false with
    | error msg => rw [hassign] at h; exact absurd h (by simp)
    | ok p =>
      obtain ⟨d1, flag⟩ := p
      rw [hassign] at h
      have hshape1 := assignSegment_shape r.groupList 0 e
        (get_parameters_from_eft e (elementEft r e) true,
          get_parameters_from_eft e (elementEft r e) false) d false d1 flag hassign
      cases flag with
      | true =>
        simp only [if_true] at h
        have hd : d' = d1 := by cases h; rfl
        subst hd
        exact hshape1
      | false =>
        simp only [if_false, Bool.false_eq_true] at h
        exact shapePreserved_trans hshape1 (dictAppendSeg_shape h)
  · have hfalse : templateOk (elementEft r e) = false := by
      cases hb : templateOk (elementEft r e) with
      | false => rfl
      | true => exact absurd hb hacc
    simp only [hfalse, Bool.false_eq_true, if_false] at h
    have hd : d' = d := by cases h; rfl
    subst hd
    exact shapePreserved_refl _

theorem processElements_shape (r : ZRegion) :
    ∀ (es : List ZElement) (d d' : GroupDict),
      processElements r es d = Except.ok d' → ShapePreserved d d' := by
  intro es
  induction es with
  | nil =>
    intro d d' h
    simp only [processElements] at h
    have hd : d' = d := by cases h; rfl
    subst hd
    exact shapePreserved_refl _
  | cons e rest ih =>
    intro d d' h
    simp only [processElements] at h
    cases hstep : processElement r d e with
    | error msg => rw [hstep] at h; exact absurd h (by simp)
    | ok d1 =>
      rw [hstep] at h
      exact shapePreserved_trans (processElement_shape r e d d1 hstep) (ih d1 d' h)

/-- Claim C3 (counterexample): with group list `["marker", "NerveA"]` the
first (and only) non-marker group is not labelled `group_1`: no `group_1`
binding exists, and the group's name is stored under `group_2_name` because
the label index also advances over the `"marker"` group. -/
theorem group_label_consecutive_counterexample :
    (analyze_elements ⟨some [⟨invalidEft, fun _ => ⟨false, fun _ _ => none⟩⟩], true,
        [⟨"marker", fun _ => false⟩, ⟨"NerveA", fun _ => false⟩]⟩).toOption.map
      (fun d => (lookupEntry d ("group_1"), lookupEntry d ("group_2_name")))
      = some (none, some (Entry.gname ("NerveA"))) := by
  rfl

/-- Claim C3 (amended): in a successful analysis of a non-empty mesh, the
group at 0-based enumeration position `i` receives label `group_<i+1>` —
its 1-based position in the full enumeration, `"marker"` included — when it
is not named `"marker"` (with `group_<i+1>_name` holding its display name);
labels therefore skip an index wherever a `"marker"` group sits, and the
marker group's position gets no label at all. -/
theorem group_label_positional (r : ZRegion) (es : List ZElement) (d : GroupDict)
    (hm : r.mesh = some es) (hne : ¬ (es.length = 0))
    (h : analyze_elements r = Except.ok d)
    (i : Nat) (hi : i < r.groupList.length) :
    ((r.groupList.get ⟨i, hi⟩).name ≠ "marker" →
      lookupEntry d (groupLabel (i + 1) ++ "_name")
          = some (Entry.gname (r.groupList.get ⟨i, hi⟩).name)
      ∧ ∃ segs, lookupEntry d (groupLabel (i + 1)) = some (Entry.curves segs))
    ∧ ((r.groupList.get ⟨i, hi⟩).name = "marker" →
      lookupEntry d (groupLabel (i + 1)) = none) := by
  simp only [analyze_elements, hm, if_neg hne] at h
  have hshape := processElements_shape r es
    (setupGroups r.groupList 0 [("ungrouped", Entry.curves [])]) d h
  have hF : FreshFrom [("ungrouped", Entry.curves [])] 0 := by
    intro j hj
    constructor
    · rw [lookupEntry, if_neg (fun hh => groupLabel_ne_ungrouped j hh.symm)]
      rfl
    · rw [lookupEntry, if_neg (fun hh => name_key_ne_ungrouped j hh.symm)]
      rfl
  have hsl := setupGroups_lookup r.groupList 0 [("ungrouped", Entry.curves [])] hF i hi
  rw [Nat.zero_add] at hsl
  constructor
  · intro hnm
    obtain ⟨h1, h2⟩ := hsl.1 hnm
    exact ⟨(hshape _).2.1 _ h2, (hshape _).2.2 _ h1⟩
  · intro hmk
    exact (hshape _).1 (hsl.2 hmk)

/-- Witness for C3 (amended) at a concrete region: group list
`["marker", "NerveA"]`, one (rejected) element. -/
theorem group_label_positional_witness :
    lookupEntry [("ungrouped", Entry.curves []), ("group_2", Entry.curves []),
        ("group_2_name", Entry.gname ("NerveA"))] (groupLabel (1 + 1) ++ "_name")
      = some (Entry.gname ("NerveA")) := by
  exact ((group_label_positional
      ⟨some [⟨invalidEft, fun _ => ⟨false, fun _ _ => none⟩⟩], true,
        [⟨"marker", fun _ => false⟩, ⟨"NerveA", fun _ => false⟩]⟩
      [⟨invalidEft, fun _ => ⟨false, fun _ _ => none⟩⟩]
      [("ungrouped", Entry.curves []), ("group_2", Entry.curves []),
        ("group_2_name", Entry.gname ("NerveA"))]
      rfl (by decide) rfl 1 (by decide)).1 (by decide)).1

/-! ### `_calculate_bezier_control_points` and the SVG writer -/

/-- Python truthiness of a dict value: a non-empty list / non-empty string. -/
def entryTruthy : Entry → Bool
  | Entry.curves l => !l.isEmpty
  | Entry.gname s => !s.isEmpty

/-- The inner loop: convert each curve of one group. -/
def mapSegs : List Segment → Except String (List BezTuple)
  | [] => Except.ok []
  | curve_pts :: rest =>
    match calculate_bezier_curve curve_pts.1 curve_pts.2, mapSegs rest with
    | Except.ok b, Except.ok bs => Except.ok (b :: bs)
    | Except.error msg, _ => Except.error msg
    | _, Except.error msg => Except.error msg

/-- `_calculate_bezier_control_points`: keep the groups whose value is truthy
and whose key does not end in `"_name"`, converting each curve list.
(A truthy non-list value would make the Python loop iterate a string and
fail with `TypeError`.) -/
def calculate_bezier_control_points : GroupDict → Except String (List (String × List BezTuple))
  | [] => Except.ok []
  | (point_group, v) :: rest =>
    if entryTruthy v && !(strEndsWith point_group ("_name")) then
      match v with
      | Entry.curves segs =>
        match mapSegs segs, calculate_bezier_control_points rest with
        | Except.ok bs, Except.ok out => Except.ok ((point_group, bs) :: out)
        | Except.error msg, _ => Except.error msg
        | _, Except.error msg => Except.error msg
      | Entry.gname _ => Except.error ("TypeError")
    else
      calculate_bezier_control_points rest

/-- Decimal text of an integer (Python would print the float value; the
numeric text of coordinates is abstracted to the exact rational). -/
def intStr (i : Int) : String :=
  if i < 0 then "-" ++ natStr i.natAbs else natStr i.natAbs

/-- Coordinate text used in path/circle attributes. -/
def qs (q : ℚ) : String :=
  if q.den = 1 then intStr q.num else intStr q.num ++ "/" ++ natStr q.den

/-- `_write_svg_bezier_path`: one `<path>` line per Bezier tuple. -/
def write_svg_bezier_path (bezier_path : List BezTuple) (indent : String) : String :=
  String.join (bezier_path.map (fun b =>
    indent ++ "<path d=\"M " ++ qs (b.1.getD 0 0) ++ " " ++ qs (b.1.getD 1 0) ++ " C "
      ++ qs (b.2.1.getD 0 0) ++ " " ++ qs (b.2.1.getD 1 0) ++ ", "
      ++ qs (b.2.2.1.getD 0 0) ++ " " ++ qs (b.2.2.1.getD 1 0) ++ ", "
      ++ qs (b.2.2.2.getD 0 0) ++ " " ++ qs (b.2.2.2.getD 1 0)
      ++ "\" stroke=\"blue\" fill-opacity=\"0.0\"/>\n"))

def svgHeader : String := "<svg width=\"1000\" height=\"1000\" xmlns=\"http://www.w3.org/2000/svg\">\n"

/-- The text emitted for one non-`"ungrouped"` group, with title id `n`:
the `<title>` carries the literal reference `.id(<label>_name)`. -/
def svgGroupChunk (n : Nat) (group_name : String) (paths : List BezTuple) : String :=
  "  <g>\n    <title id=\"title" ++ natStr n ++ "\">.id(" ++ group_name ++ "_name)</title>\n"
    ++ write_svg_bezier_path paths ("    ") ++ "  </g>\n"

/-- The text emitted for one marker circle, with title id `n`. -/
def svgMarkerChunk (n : Nat) (marker : String × Vec × String × String) : String :=
  "  <circle cx=\"" ++ qs (marker.2.1.getD 0 0) ++ "\" cy=\"" ++ qs (marker.2.1.getD 1 0)
    ++ "\" r=\"3\" fill=\"orange\">\n"
    ++ "    <title id=\"title" ++ natStr n ++ "\">.id(" ++ marker.1 ++ ")</title>\n"
    ++ "  </circle>\n"

/-- The group loop of `_write_into_svg_format`: returns the emitted chunks in
order together with the final `title_count`. `"ungrouped"` groups emit bare
paths and do not advance the counter. -/
def svgGroupItems : Nat → List (String × List BezTuple) → List String × Nat
  | title_count, [] => ([], title_count)
  | title_count, (group_name, paths) :: rest =>
    if group_name = "ungrouped" then
      let r := svgGroupItems title_count rest
      (write_svg_bezier_path paths ("  ") :: r.1, r.2)
    else
      let r := svgGroupItems (title_count + 1) rest
      (svgGroupChunk (title_count + 1) group_name paths :: r.1, r.2)

/-- The marker loop of `_write_into_svg_format`, continuing the counter. -/
def svgMarkerItems : Nat → List (String × Vec × String × String) → List String
  | _, [] => []
  | title_count, marker :: rest =>
    svgMarkerChunk (title_count + 1) marker :: svgMarkerItems (title_count + 1) rest

/-- `_write_into_svg_format`. -/
def write_into_svg_format (bezier_data : List (String × List BezTuple))
    (markers : List (String × Vec × String × String)) : String :=
  let r := svgGroupItems 0 bezier_data
  svgHeader ++ String.join r.1 ++ String.join (svgMarkerItems r.2 markers) ++ "</svg>"

/-- The SVG-producing slice of `export_flatmapsvg_from_scene`:
`_analyze_elements`, then `_calculate_bezier_control_points`, then
`_write_into_svg_format` (markers are extracted separately and passed in). -/
def svg_export_pipeline (r : ZRegion) (markers : List (String × Vec × String × String)) :
    Except String String :=
  match analyze_elements r with
  | Except.error msg => Except.error msg
  | Except.ok path_points =>
    match calculate_bezier_control_points path_points with
    | Except.error msg => Except.error msg
    | Except.ok bezier => Except.ok (write_into_svg_format bezier markers)

/-- The number of groups that received a `<g>`/`<title>` wrapper. -/
def countTitled (bezier_data : List (String × List BezTuple)) : Nat :=
  (bezier_data.filter (fun p => p.1 ≠ "ungrouped")).length

theorem countTitled_cons (group_name : String) (paths : List BezTuple)
    (rest : List (String × List BezTuple)) :
    countTitled ((group_name, paths) :: rest)
      = (if group_name = "ungrouped" then 0 else 1) + countTitled rest := by
  rw [countTitled, countTitled]
  by_cases hn : group_name = "ungrouped"
  · rw [List.filter_cons_of_neg (by simp [hn]), if_pos hn, Nat.zero_add]
  · rw [List.filter_cons_of_pos (by simp [hn]), if_neg hn]
    simp [Nat.add_comm]

theorem svgGroupItems_count : ∀ (bezier_data : List (String × List BezTuple)) (c : Nat),
    (svgGroupItems c bezier_data).2 = c + countTitled bezier_data := by
  intro bezier_data
  induction bezier_data with
  | nil => intro c; simp [svgGroupItems, countTitled]
  | cons p rest ih =>
    intro c
    obtain ⟨group_name, paths⟩ := p
    rw [svgGroupItems, countTitled_cons]
    by_cases hn : group_name = "ungrouped"
    · rw [if_pos hn, if_pos hn]
      simp only
      rw [ih c]
      omega
    · rw [if_neg hn, if_neg hn]
      simp only
      rw [ih (c + 1)]
      omega

theorem svgGroupItems_getElem : ∀ (bezier_data : List (String × List BezTuple)) (c j : Nat)
    (hj : j < bezier_data.length), (bezier_data.get ⟨j, hj⟩).1 ≠ "ungrouped" →
    (svgGroupItems c bezier_data).1[j]? =
      some (svgGroupChunk (c + countTitled (bezier_data.take j) + 1)
        (bezier_data.get ⟨j, hj⟩).1 (bezier_data.get ⟨j, hj⟩).2) := by
  intro bezier_data
  induction bezier_data with
  | nil => intro c j hj; exact absurd hj (by simp)
  | cons p rest ih =>
    intro c j hj hne
    obtain ⟨group_name, paths⟩ := p
    rw [svgGroupItems]
    by_cases hn : group_name = "ungrouped"
    · rw [if_pos hn]
      cases j with
      | zero => exact absurd hn (by simpa using hne)
      | succ j =>
        have hj' : j < rest.length := by simpa using Nat.lt_of_succ_lt_succ hj
        have hne' : (rest.get ⟨j, hj'⟩).1 ≠ "ungrouped" := by simpa using hne
        simp only [List.getElem?_cons_succ]
        rw [ih c j hj' hne']
        have harith : c + countTitled (rest.take j) + 1
            = c + countTitled (((group_name, paths) :: rest).take (j + 1)) + 1 := by
          rw [List.take_succ_cons, countTitled_cons, if_pos hn]
          omega
        rw [harith]
        rfl
    · rw [if_neg hn]
      cases j with
      | zero =>
        simp only [List.getElem?_cons_zero, List.take_zero]
        rw [show countTitled [] = 0 from rfl]
        rfl
      | succ j =>
        have hj' : j < rest.length := by simpa using Nat.lt_of_succ_lt_succ hj
        have hne' : (rest.get ⟨j, hj'⟩).1 ≠ "ungrouped" := by simpa using hne
        simp only [List.getElem?_cons_succ]
        rw [ih (c + 1) j hj' hne']
        have harith : (c + 1) + countTitled (rest.take j) + 1
            = c + countTitled (((group_name, paths) :: rest).take (j + 1)) + 1 := by
          rw [List.take_succ_cons, countTitled_cons, if_neg hn]
          omega
        rw [harith]
        rfl

theorem svgMarkerItems_getElem :
    ∀ (markers : List (String × Vec × String × String)) (c j : Nat)
      (hj : j < markers.length),
      (svgMarkerItems c markers)[j]? = some (svgMarkerChunk (c + j + 1) (markers.get ⟨j, hj⟩)) := by
  intro markers
  induction markers with
  | nil => intro c j hj; exact absurd hj (by simp)
  | cons m rest ih =>
    intro c j hj
    rw [svgMarkerItems]
    cases j with
    | zero =>
      simp only [List.getElem?_cons_zero]
      rfl
    | succ j =>
      have hj' : j < rest.length := by simpa using Nat.lt_of_succ_lt_succ hj
      simp only [List.getElem?_cons_succ]
      rw [ih (c + 1) j hj']
      have harith : (c + 1) + j + 1 = c + (j + 1) + 1 := by omega
      rw [harith]
      rfl

/-- Claim C5 (amended): every group other than `"ungrouped"` has its paths
wrapped in a `<g>` whose `<title>` carries the literal reference
`.id(<label>_name)` to the group's name entry — not the display name itself —
and the numeric title ids form a single monotonically increasing counter
shared by group titles and marker titles: the `j`-th emitted group chunk uses
id (number of preceding titled groups) + 1, and the `j`-th marker chunk uses
id (total titled groups) + j + 1, so all group titles precede all marker
titles. -/
theorem svg_title_counter_shared (bezier_data : List (String × List BezTuple))
    (markers : List (String × Vec × String × String)) :
    write_into_svg_format bezier_data markers
      = svgHeader ++ String.join (svgGroupItems 0 bezier_data).1
        ++ String.join (svgMarkerItems (countTitled bezier_data) markers) ++ "</svg>"
    ∧ (∀ j (hj : j < bezier_data.length), (bezier_data.get ⟨j, hj⟩).1 ≠ "ungrouped" →
        (svgGroupItems 0 bezier_data).1[j]? =
          some (svgGroupChunk (countTitled (bezier_data.take j) + 1)
            (bezier_data.get ⟨j, hj⟩).1 (bezier_data.get ⟨j, hj⟩).2))
    ∧ (∀ j (hj : j < markers.length),
        (svgMarkerItems (countTitled bezier_data) markers)[j]? =
          some (svgMarkerChunk (countTitled bezier_data + j + 1) (markers.get ⟨j, hj⟩))) := by
  refine ⟨?_, ?_, ?_⟩
  · show svgHeader ++ String.join (svgGroupItems 0 bezier_data).1
        ++ String.join (svgMarkerItems (svgGroupItems 0 bezier_data).2 markers) ++ "</svg>"
      = _
    rw [svgGroupItems_count bezier_data 0, Nat.zero_add]
  · intro j hj hne
    have h := svgGroupItems_getElem bezier_data 0 j hj hne
    rwa [Nat.zero_add] at h
  · intro j hj
    exact svgMarkerItems_getElem markers (countTitled bezier_data) j hj

/-- Witness for C5 (amended): one titled group and one marker; the group
title gets id 1 and the marker, continuing the shared counter, id 2. -/
theorem svg_title_counter_shared_witness :
    (svgGroupItems 0 [("group_1", ([] : List BezTuple))]).1[0]? =
      some (svgGroupChunk 1 ("group_1") [])
    ∧ (svgMarkerItems (countTitled [("group_1", ([] : List BezTuple))])
        [("marker_1", [0, 0], "nm", "id")])[0]? =
      some (svgMarkerChunk 2 ("marker_1", [0, 0], "nm", "id")) :=
  ⟨(svg_title_counter_shared [("group_1", [])] [("marker_1", [0, 0], "nm", "id")]).2.1
      0 (by decide) (by decide),
   (svg_title_counter_shared [("group_1", [])] [("marker_1", [0, 0], "nm", "id")]).2.2
      0 (by decide)⟩

/-- Fixture for C5: a region whose single group, `"NerveA"`, contains the
accepted element. -/
def svgRegion : ZRegion := ⟨some [wElement], true, [⟨"NerveA", fun _ => true⟩]⟩

set_option maxRecDepth 8192

/-- Claim C5 (counterexample): the emitted `<title>` does not carry the
group's display name. Exporting `svgRegion` produces an SVG that nowhere
contains the display name `"NerveA"`; the group's title text is the
reference `.id(group_1_name)`. -/
theorem svg_title_display_name_counterexample :
    (svg_export_pipeline svgRegion []).toOption.map
      (fun s => (strContains s ("NerveA"), strContains s (".id(group_1_name)")))
      = some (false, true) := by
  have hcurve : calculate_bezier_curve wSeg.1 wSeg.2
      = Except.ok (([0, 0] : Vec), ([0, 0] : Vec), ([0, 0] : Vec), ([0, 0] : Vec)) := by
    norm_num [wSeg, calculate_bezier_curve, vectorops.sub, vectorops.add, vectorops.div]
  have hms : mapSegs [wSeg]
      = Except.ok [(([0, 0] : Vec), ([0, 0] : Vec), ([0, 0] : Vec), ([0, 0] : Vec))] := by
    simp only [mapSegs, hcurve]
  have hanalyze : analyze_elements svgRegion = Except.ok
      [("ungrouped", Entry.curves []), ("group_1", Entry.curves [wSeg]),
        ("group_1_name", Entry.gname ("NerveA"))] := rfl
  have hbez : calculate_bezier_control_points
      [("ungrouped", Entry.curves []), ("group_1", Entry.curves [wSeg]),
        ("group_1_name", Entry.gname ("NerveA"))]
      = Except.ok [("group_1",
          [(([0, 0] : Vec), ([0, 0] : Vec), ([0, 0] : Vec), ([0, 0] : Vec))])] := by
    rw [calculate_bezier_control_points, if_neg (by decide)]
    rw [calculate_bezier_control_points, if_pos (by decide)]
    rw [hms]
    rw [calculate_bezier_control_points, if_neg (by decide)]
    rfl
  simp only [svg_export_pipeline, hanalyze, hbez]
  rfl

/-! ### Claim C9: empty meshes and an absent coordinate field -/

/-- Every binding the setup loop can produce: an empty curve list, or a name
entry stored under a `"_name"` key. -/
def EmptySetupEntry (p : String × Entry) : Prop :=
  match p.2 with
  | Entry.curves l => l = []
  | Entry.gname _ => strEndsWith p.1 ("_name") = true

theorem dictAssign_members {d : GroupDict} {k : String} {v : Entry}
    (h : ∀ p ∈ d, EmptySetupEntry p) (hv : EmptySetupEntry (k, v)) :
    ∀ p ∈ dictAssign d k v, EmptySetupEntry p := by
  induction d with
  | nil =>
    intro p hp
    simp [dictAssign] at hp
    subst hp
    exact hv
  | cons q rest ih =>
    intro p hp
    obtain ⟨k', v'⟩ := q
    rw [dictAssign] at hp
    by_cases hk : k' = k
    · rw [if_pos hk] at hp
      cases hp with
      | head => subst hk; exact hv
      | tail _ hmem => exact h p (List.mem_cons_of_mem _ hmem)
    · rw [if_neg hk] at hp
      cases hp with
      | head => exact h _ (List.mem_cons_self _ _)
      | tail _ hmem =>
        exact ih (fun q hq => h q (List.mem_cons_of_mem _ hq)) p hmem

theorem setupGroups_members : ∀ (gs : List ZGroup) (idx : Nat) (d : GroupDict),
    (∀ p ∈ d, EmptySetupEntry p) → ∀ p ∈ setupGroups gs idx d, EmptySetupEntry p := by
  intro gs
  induction gs with
  | nil => intro idx d h; exact h
  | cons g rest ih =>
    intro idx d h
    rw [setupGroups]
    by_cases hmk : g.name ≠ "marker"
    · rw [if_pos hmk]
      apply ih
      apply dictAssign_members (dictAssign_members h ?hv1) ?hv2
      case hv1 => rfl
      case hv2 =>
        show strEndsWith (groupLabel (idx + 1) ++ "_name") ("_name") = true
        exact strEndsWith_append _ _
    · rw [if_neg hmk]
      exact ih (idx + 1) d h

theorem bezier_of_empty : ∀ d : GroupDict, (∀ p ∈ d, EmptySetupEntry p) →
    calculate_bezier_control_points d = Except.ok [] := by
  intro d
  induction d with
  | nil => intro _; rfl
  | cons p rest ih =>
    intro h
    obtain ⟨k, v⟩ := p
    simp only [calculate_bezier_control_points]
    have hv : EmptySetupEntry (k, v) := h _ (List.mem_cons_self _ _)
    have hrest := ih (fun q hq => h q (List.mem_cons_of_mem _ hq))
    cases v with
    | curves l =>
      have hl : l = [] := hv
      subst hl
      rw [if_neg (by simp [entryTruthy])]
      exact hrest
    | gname s =>
      have he : strEndsWith k ("_name") = true := hv
      rw [if_neg (by simp [entryTruthy, he])]
      exact hrest

theorem templateOk_invalidEft : templateOk invalidEft = false := rfl

theorem processElements_invalid_field (r : ZRegion) (hcv : r.coordinatesValid = false) :
    ∀ (es : List ZElement) (d : GroupDict), processElements r es d = Except.ok d := by
  intro es
  induction es with
  | nil => intro d; rfl
  | cons e rest ih =>
    intro d
    have hstep : processElement r d e = Except.ok d := by
      apply processElement_not_accepted
      rw [elementEft, hcv]
      simp only [Bool.false_eq_true, if_false]
      exact templateOk_invalidEft
    simp only [processElements, hstep]
    exact ih d

/-- The SVG document holding nothing but the fixed canvas root. -/
def svgCanvasOnly : String := svgHeader ++ "</svg>"

theorem write_into_svg_format_nil : write_into_svg_format [] [] = svgCanvasOnly := by
  apply str_ext
  show ((((svgHeader ++ String.join []).data))
      ++ (String.join (svgMarkerItems (svgGroupItems 0 []).2 [])).data ++ ("</svg>").data)
    = (svgHeader ++ "</svg>").data
  simp [String.join, str_append_data, svgMarkerItems, svgGroupItems]

/-- Claim C9 (counterexample): with the coordinate field absent but one
element in the 1-D mesh, `_analyze_elements` does not return an empty
mapping: the `"ungrouped"` binding (and any group labels) are still present. -/
theorem empty_mapping_counterexample :
    analyze_elements ⟨some [wElement], false, []⟩
      = Except.ok [("ungrouped", Entry.curves [])]
    ∧ ([("ungrouped", Entry.curves [])] : GroupDict) ≠ [] := by
  constructor
  · rfl
  · simp

/-- Claim C9 (amended): when the 1-D mesh is absent or has zero elements the
analyzer returns the empty mapping without raising and the export (with no
markers) is exactly the canvas root with no paths; when the coordinate field
is absent but the mesh is present, the analyzer instead succeeds with a
mapping whose every curve list is empty (each element is silently skipped),
and the emitted SVG is still only the canvas root. -/
theorem empty_mesh_empty_svg (r : ZRegion) :
    ((r.mesh = none ∨ r.mesh = some []) →
      analyze_elements r = Except.ok []
      ∧ svg_export_pipeline r [] = Except.ok svgCanvasOnly)
    ∧ (r.coordinatesValid = false →
      ∀ es, r.mesh = some es →
        ∃ d, analyze_elements r = Except.ok d
          ∧ (∀ p ∈ d, ∀ l, p.2 = Entry.curves l → l = [])
          ∧ svg_export_pipeline r [] = Except.ok svgCanvasOnly) := by
  constructor
  · intro hm
    have hana : analyze_elements r = Except.ok [] := by
      cases hm with
      | inl h => simp [analyze_elements, h]
      | inr h => simp [analyze_elements, h]
    refine ⟨hana, ?_⟩
    simp only [svg_export_pipeline, hana]
    rw [show calculate_bezier_control_points [] = Except.ok [] from rfl]
    show Except.ok (write_into_svg_format [] []) = Except.ok svgCanvasOnly
    rw [write_into_svg_format_nil]
  · intro hcv es hm
    by_cases hlen : es.length = 0
    · have hana : analyze_elements r = Except.ok [] := by
        simp [analyze_elements, hm, hlen]
      refine ⟨[], hana, by simp, ?_⟩
      simp only [svg_export_pipeline, hana]
      rw [show calculate_bezier_control_points [] = Except.ok [] from rfl]
      show Except.ok (write_into_svg_format [] []) = Except.ok svgCanvasOnly
      rw [write_into_svg_format_nil]
    · have hana : analyze_elements r
          = Except.ok (setupGroups r.groupList 0 [("ungrouped", Entry.curves [])]) := by
        simp [analyze_elements, hm, hlen, processElements_invalid_field r hcv]
      have hmem : ∀ p ∈ setupGroups r.groupList 0 [("ungrouped", Entry.curves [])],
          EmptySetupEntry p := by
        apply setupGroups_members
        intro p hp
        simp at hp
        subst hp
        rfl
      refine ⟨setupGroups r.groupList 0 [("ungrouped", Entry.curves [])], hana, ?_, ?_⟩
      · intro p hp l hl
        have h2 := hmem p hp
        simp [EmptySetupEntry, hl] at h2
        exact h2
      · simp only [svg_export_pipeline, hana]
        rw [bezier_of_empty _ hmem]
        show Except.ok (write_into_svg_format [] []) = Except.ok svgCanvasOnly
        rw [write_into_svg_format_nil]

/-- Witness for C9 (amended) at a concrete region with an empty mesh. -/
theorem empty_mesh_empty_svg_witness :
    analyze_elements ⟨some [], true, []⟩ = Except.ok []
    ∧ svg_export_pipeline ⟨some [], true, []⟩ [] = Except.ok svgCanvasOnly :=
  (empty_mesh_empty_svg ⟨some [], true, []⟩).1 (Or.inr rfl)
